import Mathlib

/-!
Verification of the natural-language specification of the proof-systems
repository against a shallow embedding of its Rust sources.

The embedding covers:
* `src/msm/src/serialization/mod.rs` — the MVLookup fixed tables
  (`LookupTable`, its `LookupTableID` implementation, and the `entries`
  construction from the test module);
* `src/kimchi/src/dummy_sponge.rs` — the deterministic no-op sponges;
* `src/kimchi/src/public_input_only_prover.rs` — the hard-coded verifier
  index and the public-input-only prover.

Machine integers (`u64` loop indices) are modelled as `ℕ` with explicit
`% 2 ^ 64` where Rust release-mode wrapping matters.  Field elements are
modelled as `ZMod p` (for the tables, where canonical representatives
matter) or as an arbitrary `Field F` (for the prover, which is generic in
the scalar field).  Curve points that the prover manipulates are modelled
symbolically: the SRS generators `g i` and the blinding generator `h` are
treated as a formal basis, so a point is a formal linear combination, and
"commits to polynomial p with blinding b" is a checkable equation.
Fallible Rust code (checked subtraction, assertions, panics) is modelled with
`Option` / `Except`.
-/

namespace ProofSystems

/-! ### Lookup tables — `src/msm/src/serialization/mod.rs` -/

/-- The four fixed lookup tables of the serialization circuit
(`enum LookupTable<Ff>`).  The `PhantomData` payload of
`RangeCheckFfHighest` carries no information and is dropped. -/
inductive LookupTable where
  | rangeCheck15
  | rangeCheck4
  | rangeCheck4Abs
  | rangeCheckFfHighest
  deriving DecidableEq

/-- The `to_u32` method of the `LookupTableID` implementation. -/
def LookupTable.to_u32 : LookupTable → ℕ
  | .rangeCheck15 => 1
  | .rangeCheck4 => 2
  | .rangeCheck4Abs => 3
  | .rangeCheckFfHighest => 4

/-- The `from_u32` method.  The catch-all arm of the Rust `match` panics
(with an invalid-id message), modelled as `none`. -/
def LookupTable.from_u32 (value : ℕ) : Option LookupTable :=
  if value = 1 then some .rangeCheck15
  else if value = 2 then some .rangeCheck4
  else if value = 3 then some .rangeCheck4Abs
  else if value = 4 then some .rangeCheckFfHighest
  else none

/-- The `is_fixed` method: all tables are fixed tables. -/
def LookupTable.is_fixed : LookupTable → Bool := fun _ => true

/-- The `length` method.  `topLimb` stands for
`ff_modulus_highest_limb::<Ff>()` converted to `usize`.
Modelled from the spec: the body of
`crate::serialization::interpreter::ff_modulus_highest_limb` is not under
`src/`; the spec describes the resulting table as "sized to the bit-width
of the top limb of a foreign prime modulus", so the value is kept as an
abstract parameter `topLimb`. -/
def LookupTable.length (topLimb : ℕ) : LookupTable → ℕ
  | .rangeCheck15 => 2 ^ 15
  | .rangeCheck4 => 2 ^ 4
  | .rangeCheck4Abs => 2 ^ 5
  | .rangeCheckFfHighest => topLimb

/-- Modulus of Rust `u64` arithmetic. -/
def u64Size : ℕ := 2 ^ 64

/-- The boundary test `i < 2 * (i << 4)` from the `RangeCheck4Abs` arm of
`entries`, on a `u64` index `i < 2^64`, with Rust release-mode wrapping:
`i << 4` discards high bits and `2 * _` wraps modulo `2^64`. -/
def rc4absTest (i : ℕ) : Bool :=
  decide (i < 2 * (i * 2 ^ 4 % u64Size) % u64Size)

/-- The entry produced by the `RangeCheck4Abs` arm of `entries` at index
`i`, as a canonical `u64` value (before the cast into the field).  The
middle arm computes `i - 2 * (1 << 4)` in `u64`, which wraps for
`i < 32`; wrapping subtraction is `(i + (2^64 - 32)) % 2^64`. -/
def rc4absEntryNat (i : ℕ) : ℕ :=
  if i < 2 ^ 4 then i
  else if rc4absTest i then (i + (u64Size - 2 ^ 5)) % u64Size
  else 0

/-- The `entries` method from the test module of
`src/msm/src/serialization/mod.rs` (lines 107-129), producing the table
entries over the scalar field, modelled as `ZMod p`.  The leading
`assert!(domain.d1.size >= (1 << 15))` panics when the domain is too
small, modelled as `none`.  `F::from(i)` is the cast `ℕ → ZMod p`;
the `RangeCheckFfHighest` arm compares field elements with the `Ord`
instance on canonical representatives (`ZMod.val`). -/
def LookupTable.entries (p size topLimb : ℕ) : LookupTable → Option (List (ZMod p)) :=
  fun t =>
    if 2 ^ 15 ≤ size then
      some (match t with
        | .rangeCheck15 => (List.range size).map (fun i => (Nat.cast i : ZMod p))
        | .rangeCheck4 =>
            (List.range size).map (fun (i : ℕ) =>
              if i < 2 ^ 4 then (Nat.cast i : ZMod p) else 0)
        | .rangeCheck4Abs =>
            (List.range size).map (fun i => (Nat.cast (rc4absEntryNat i) : ZMod p))
        | .rangeCheckFfHighest =>
            (List.range size).map (fun (i : ℕ) =>
              if (Nat.cast i : ZMod p).val < (Nat.cast topLimb : ZMod p).val then
                (Nat.cast i : ZMod p)
              else 0))
    else none

/-! ### Dummy sponges — `src/kimchi/src/dummy_sponge.rs`

The Rust structs `DummyFqSponge` and `DummyFrSponge` have no fields; the
absorb methods have empty bodies and the squeeze methods return the
constant `from(1)`.  `Fq` and `Fp` are modelled as arbitrary types with a
`1`, and absorbed data (curve points, base- and scalar-field elements) as
arbitrary types. -/

/-- State of `DummyFqSponge` / `DummyFrSponge`: a fieldless struct. -/
structure DummySpongeState where
  deriving DecidableEq

/-- One call to an absorb method of `DummyFqSponge`
(`absorb_g`, `absorb_fq`, `absorb_fr`), with its argument. -/
inductive DummyFqAbsorbCall (G Fq Fp : Type) where
  | absorb_g (gs : List G)
  | absorb_fq (xs : List Fq)
  | absorb_fr (xs : List Fp)

/-- One call to an absorb method of `DummyFrSponge`
(`absorb`, `absorb_multiple`, `absorb_evaluations`).  The evaluations
argument is abstracted as a list. -/
inductive DummyFrAbsorbCall (Fp : Type) where
  | absorb (x : Fp)
  | absorb_multiple (xs : List Fp)
  | absorb_evaluations (e : List Fp)

/-- The `new` constructor of both dummy sponges ignores its parameters. -/
def DummySpongeState.new : DummySpongeState := {}

/-- An absorb method of `DummyFqSponge`: the body is empty, the state is
returned unchanged. -/
def DummySpongeState.absorbFq {G Fq Fp : Type} (s : DummySpongeState)
    (_call : DummyFqAbsorbCall G Fq Fp) : DummySpongeState := s

/-- An absorb method of `DummyFrSponge`: the body is empty, the state is
returned unchanged. -/
def DummySpongeState.absorbFr {Fp : Type} (s : DummySpongeState)
    (_call : DummyFrAbsorbCall Fp) : DummySpongeState := s

/-- Run a sequence of `DummyFqSponge` absorb calls from a state. -/
def DummySpongeState.runFq {G Fq Fp : Type} (s : DummySpongeState)
    (calls : List (DummyFqAbsorbCall G Fq Fp)) : DummySpongeState :=
  calls.foldl DummySpongeState.absorbFq s

/-- Run a sequence of `DummyFrSponge` absorb calls from a state. -/
def DummySpongeState.runFr {Fp : Type} (s : DummySpongeState)
    (calls : List (DummyFrAbsorbCall Fp)) : DummySpongeState :=
  calls.foldl DummySpongeState.absorbFr s

/-- `DummyFqSponge::challenge`: returns `Fp::from(1)`. -/
def DummySpongeState.challenge (Fp : Type) [One Fp] (_s : DummySpongeState) : Fp := 1

/-- `DummyFqSponge::challenge_fq`: returns `Fq::from(1)`. -/
def DummySpongeState.challenge_fq (Fq : Type) [One Fq] (_s : DummySpongeState) : Fq := 1

/-- `DummyFqSponge::digest` (consumes the sponge): returns `Fp::from(1)`. -/
def DummySpongeState.digest (Fp : Type) [One Fp] (_s : DummySpongeState) : Fp := 1

/-- `DummyFqSponge::digest_fq`: returns `Fq::from(1)`. -/
def DummySpongeState.digest_fq (Fq : Type) [One Fq] (_s : DummySpongeState) : Fq := 1

/-- The `ScalarChallenge` wrapper from mina-poseidon. -/
structure ScalarChallenge (F : Type) where
  chal : F
  deriving DecidableEq

/-- `DummyFrSponge::challenge`: returns `ScalarChallenge(Fp::from(1))`. -/
def DummySpongeState.challengeFr (Fp : Type) [One Fp] (_s : DummySpongeState) :
    ScalarChallenge Fp := ⟨1⟩

/-! ### Symbolic curve points

The public-input-only prover builds every commitment from the SRS points
`srs.g[i]` and the blinding generator `srs.h` using only the group law,
negation and scalar multiplication.  A point is modelled as a formal
linear combination of that basis: `gs i` is the coefficient of `g i` and
`hc` the coefficient of `h`.  A commitment to the polynomial with
coefficient list `p` under blinding factor `b` is then the combination
with `gs i = p[i]` and `hc = b`. -/

/-- A formal linear combination of the SRS basis points `g 0, g 1, …`
and the blinding generator `h`. -/
@[ext]
structure SymPoint (F : Type) where
  gs : ℕ → F
  hc : F

/-- Group law on symbolic points. -/
def SymPoint.add {F : Type} [Field F] (P Q : SymPoint F) : SymPoint F :=
  ⟨fun i => P.gs i + Q.gs i, P.hc + Q.hc⟩

/-- Negation of a symbolic point. -/
def SymPoint.neg {F : Type} [Field F] (P : SymPoint F) : SymPoint F :=
  ⟨fun i => -P.gs i, -P.hc⟩

/-- Scalar multiplication of a symbolic point (`point.mul(scalar)`). -/
def SymPoint.smul {F : Type} [Field F] (c : F) (P : SymPoint F) : SymPoint F :=
  ⟨fun i => c * P.gs i, c * P.hc⟩

/-- The SRS point `srs.g[i]`. -/
def srsG (F : Type) [Field F] (i : ℕ) : SymPoint F :=
  ⟨fun j => if j = i then 1 else 0, 0⟩

/-- The SRS blinding generator `srs.h`. -/
def srsH (F : Type) [Field F] : SymPoint F :=
  ⟨fun _ => 0, 1⟩

/-- The symbolic commitment to the polynomial with coefficient list `p`
(low degree first) under blinding factor `b`. -/
def commitSym {F : Type} [Field F] (p : List F) (b : F) : SymPoint F :=
  ⟨fun i => p.getD i 0, b⟩

/-- A `PolyComm`: a vector of unshifted commitment points (the `shifted`
field is `None` everywhere in this prover and is dropped). -/
structure PolyCommModel (F : Type) where
  unshifted : List (SymPoint F)

instance : Fact (Nat.Prime 65537) := ⟨by norm_num⟩

instance : NeZero (65537 : ℕ) := ⟨by norm_num⟩

/-! ### Verifier index — `src/kimchi/src/public_input_only_prover.rs`, `verifier_index` -/

/-- The `LookupPatterns` record (which lookup patterns are in use). -/
structure LookupPatterns where
  xor : Bool
  lookup : Bool
  range_check : Bool
  foreign_field_mul : Bool
  deriving DecidableEq

/-- The `LookupFeatures` record. -/
structure LookupFeatures where
  patterns : LookupPatterns
  joint_lookup_used : Bool
  uses_runtime_tables : Bool
  deriving DecidableEq

/-- The `FeatureFlags` record. -/
structure FeatureFlags where
  range_check0 : Bool
  range_check1 : Bool
  lookup_features : LookupFeatures
  foreign_field_add : Bool
  foreign_field_mul : Bool
  xor : Bool
  rot : Bool
  deriving DecidableEq

/-- The feature-flag record built inside `verifier_index`
(lines 56-73): every flag is `false`. -/
def publicInputOnlyFeatureFlags : FeatureFlags :=
  { range_check0 := false
    range_check1 := false
    lookup_features :=
      { patterns :=
          { xor := false
            lookup := false
            range_check := false
            foreign_field_mul := false }
        joint_lookup_used := false
        uses_runtime_tables := false }
    foreign_field_add := false
    foreign_field_mul := false
    xor := false
    rot := false }

/-- The fields of the kimchi `VerifierIndex` that the claims are about.
`PERMUTS = 7` and `COLUMNS = 15` as in `crate::circuits::wires`.  The
linearization, sponge caches (`zkpm`, `w`) and SRS handle are opaque to
the claims and are dropped. -/
structure VerifierIndexModel (F : Type) where
  domain_size : ℕ
  max_poly_size : ℕ
  public : ℕ
  prev_challenges : ℕ
  sigma_comm : Fin 7 → PolyCommModel F
  coefficients_comm : Fin 15 → PolyCommModel F
  generic_comm : PolyCommModel F
  psm_comm : PolyCommModel F
  complete_add_comm : PolyCommModel F
  mul_comm : PolyCommModel F
  emul_comm : PolyCommModel F
  endomul_scalar_comm : PolyCommModel F
  range_check0_comm : Option (PolyCommModel F)
  range_check1_comm : Option (PolyCommModel F)
  foreign_field_add_comm : Option (PolyCommModel F)
  foreign_field_mul_comm : Option (PolyCommModel F)
  xor_comm : Option (PolyCommModel F)
  rot_comm : Option (PolyCommModel F)
  shift : Fin 7 → F
  endo : F
  lookup_index : Option Unit

/-- The `verifier_index` function (lines 47-133).  `shifts` stands for
`permutation::Shifts::new(&domain.d1).shifts` and `endoQ` for the
endomorphism constant, both computed outside `src/` and kept abstract.
`make_comm` wraps one point into a `PolyComm` with no shifted part. -/
def verifier_index (F : Type) [Field F] (domainSize maxPolySize numPublicInputs
    numPrevChallenges : ℕ) (shifts : Fin 7 → F) (endoQ : F) : VerifierIndexModel F :=
  let make_comm : SymPoint F → PolyCommModel F := fun c => ⟨[c]⟩
  { domain_size := domainSize
    max_poly_size := maxPolySize
    public := numPublicInputs
    prev_challenges := numPrevChallenges
    -- Encodes the polynomial `f(x) = x * shifts[i]`, with no blinding:
    -- `srs.g[1].mul(shifts.shifts[i])`.
    sigma_comm := fun i => ⟨[SymPoint.smul (shifts i) (srsG F 1)]⟩
    coefficients_comm := fun i =>
      make_comm (if i.val = 0 then srsG F 0 else srsH F)
    -- The polynomial `f(x) = 1`, without blinding.
    generic_comm := make_comm (srsG F 0)
    -- The polynomials `f(x) = 0`, with blinding factor 1.
    psm_comm := make_comm (srsH F)
    complete_add_comm := make_comm (srsH F)
    mul_comm := make_comm (srsH F)
    emul_comm := make_comm (srsH F)
    endomul_scalar_comm := make_comm (srsH F)
    -- Disable all optional gates explicitly.
    range_check0_comm := none
    range_check1_comm := none
    foreign_field_add_comm := none
    foreign_field_mul_comm := none
    xor_comm := none
    rot_comm := none
    shift := shifts
    endo := endoQ
    lookup_index := none }

/-! ### Proof evaluations — `chunked_evals` (lines 297-366) -/

/-- A `PointEvaluations`: one value at `zeta` and one at `zeta * omega`. -/
structure PointEvals (A : Type) where
  zeta : A
  zetaOmega : A
  deriving DecidableEq

/-- The fields of the kimchi `ProofEvaluations`, with chunked evaluations
(each a list of chunk values).  `s` has `PERMUTS - 1 = 6` entries,
`coefficients` and `w` have `COLUMNS = 15`, `lookup_sorted` has 5. -/
structure ProofEvalsModel (F : Type) where
  s : Fin 6 → PointEvals (List F)
  coefficients : Fin 15 → PointEvals (List F)
  w : Fin 15 → PointEvals (List F)
  z : PointEvals (List F)
  generic_selector : PointEvals (List F)
  poseidon_selector : PointEvals (List F)
  complete_add_selector : PointEvals (List F)
  mul_selector : PointEvals (List F)
  emul_selector : PointEvals (List F)
  endomul_scalar_selector : PointEvals (List F)
  range_check0_selector : Option (PointEvals (List F))
  range_check1_selector : Option (PointEvals (List F))
  foreign_field_add_selector : Option (PointEvals (List F))
  foreign_field_mul_selector : Option (PointEvals (List F))
  xor_selector : Option (PointEvals (List F))
  rot_selector : Option (PointEvals (List F))
  runtime_lookup_table_selector : Option (PointEvals (List F))
  xor_lookup_selector : Option (PointEvals (List F))
  lookup_gate_lookup_selector : Option (PointEvals (List F))
  range_check_lookup_selector : Option (PointEvals (List F))
  foreign_field_mul_lookup_selector : Option (PointEvals (List F))
  lookup_aggregation : Option (PointEvals (List F))
  lookup_table : Option (PointEvals (List F))
  lookup_sorted : Fin 5 → Option (PointEvals (List F))
  runtime_lookup_table : Option (PointEvals (List F))

/-- The `constant_evals` closure: a single-chunk evaluation equal to `x`
at both points. -/
def constantEvals {F : Type} (x : F) : PointEvals (List F) :=
  ⟨[x], [x]⟩

/-- The `chunked_evals` value built by the prover (lines 297-366).
`w0` stands for the chunked evaluations of the nonzero witness column
(`witness_poly.to_chunked_polynomial(...)` evaluated at both points):
the polynomial itself comes from an FFT interpolation treated as an
external service, so its chunk evaluations are a parameter. -/
def chunked_evals {F : Type} [Field F] (zeta zetaOmega : F) (shift : Fin 7 → F)
    (w0 : PointEvals (List F)) : ProofEvalsModel F :=
  { -- Inlined computations of `f(x) = x * shift[i]`.
    s := fun i => ⟨[zeta * shift i.castSucc], [zetaOmega * shift i.castSucc]⟩
    coefficients := fun i =>
      if i.val = 0 then constantEvals 1 else constantEvals 0
    w := fun i => if i.val = 0 then w0 else constantEvals 0
    -- The permutation accumulator is the constant polynomial 1.
    z := constantEvals 1
    -- Enabled on every row, via `f(x) = 1`.
    generic_selector := constantEvals 1
    -- Disabled everywhere, via `f(x) = 0`.
    poseidon_selector := constantEvals 0
    complete_add_selector := constantEvals 0
    mul_selector := constantEvals 0
    emul_selector := constantEvals 0
    endomul_scalar_selector := constantEvals 0
    -- All optional gates are disabled.
    range_check0_selector := none
    range_check1_selector := none
    foreign_field_add_selector := none
    foreign_field_mul_selector := none
    xor_selector := none
    rot_selector := none
    runtime_lookup_table_selector := none
    xor_lookup_selector := none
    lookup_gate_lookup_selector := none
    range_check_lookup_selector := none
    foreign_field_mul_lookup_selector := none
    -- The lookup argument is disabled.
    lookup_aggregation := none
    lookup_table := none
    lookup_sorted := fun _ => none
    runtime_lookup_table := none }

/-- Evaluation of a chunk list as a polynomial in the chunking power
(`DensePolynomial::eval_polynomial`), used by `ProofEvaluations::combine`. -/
def evalChunks {F : Type} [Field F] (chunks : List F) (pt : F) : F :=
  chunks.foldr (fun c acc => c + pt * acc) 0

/-- `PointEvaluations` combination at the two chunking powers. -/
def combinePoint {F : Type} [Field F] (pows : PointEvals F)
    (pe : PointEvals (List F)) : PointEvals F :=
  ⟨evalChunks pe.zeta pows.zeta, evalChunks pe.zetaOmega pows.zetaOmega⟩

/-! ### Permutation linearization scalar — `ft` (lines 382-406)

`ConstraintSystem::perm_scalars` and `permutation::eval_zk_polynomial`
live in kimchi modules that are not under `src/`; `perm_scalars` is
modelled from the spec below, and the zk-polynomial evaluation
`eval_zk_polynomial(domain, zeta)` is kept as an abstract parameter
`zkpZeta` (both the prover model and the closed form receive the same
value, as both sides evaluate the same public polynomial). -/

/-- Modelled from the spec: the verifier scalar `perm_scalars` of the
permutation argument (`ConstraintSystem::perm_scalars`, not under
`src/`).  Per the spec (section 4.4), the accumulator ratio aggregates
across the first `PERMUTS - 1` wire columns with challenge `beta` and
offset `gamma` the sigma-shifted wire values against the identity-shifted
ones; the resulting linearization scalar is the negated product of
`z(zeta * omega) * beta * alpha0 * zkp(zeta)` with the per-column factors
`gamma + beta * s_i(zeta) + w_i(zeta)`. -/
def perm_scalars {F : Type} [Field F] (wZeta sZeta : Fin 6 → F) (zZetaOmega : F)
    (beta gamma alpha0 zkpZeta : F) : F :=
  -(zZetaOmega * beta * alpha0 * zkpZeta *
    ∏ i : Fin 6, (gamma + beta * sZeta i + wZeta i))

/-- The scalar the prover computes for the linearized permutation
contribution (lines 386-396): `perm_scalars` applied to the combined
evaluations of `chunked_evals`.  `alpha0` stands for the first
permutation power of alpha (`all_alphas.get_alphas(Permutation, …)`). -/
def prover_ft_scalar {F : Type} [Field F] (beta gamma alpha0 zkpZeta zeta
    zetaOmega : F) (shift : Fin 7 → F) (w0 : PointEvals (List F))
    (pows : PointEvals F) : F :=
  let e := chunked_evals zeta zetaOmega shift w0
  perm_scalars
    (fun i => (combinePoint pows (e.w ⟨i.val, by omega⟩)).zeta)
    (fun i => (combinePoint pows (e.s i)).zeta)
    ((combinePoint pows e.z).zetaOmega)
    beta gamma alpha0 zkpZeta

/-- The coefficient list of the `ft` polynomial the prover constructs
(lines 398-406): `f(x) = x * (scalar * shifts[PERMUTS - 1])`. -/
def prover_ft_coeffs {F : Type} [Field F] (beta gamma alpha0 zkpZeta zeta
    zetaOmega : F) (shift : Fin 7 → F) (w0 : PointEvals (List F))
    (pows : PointEvals F) : List F :=
  [0, prover_ft_scalar beta gamma alpha0 zkpZeta zeta zetaOmega shift w0 pows *
    shift 6]

/-- The closed form the spec attributes to the identity-permutation
degenerate case: the accumulator `z` collapses to the constant `1`, each
`s_i(zeta)` is `zeta * shift[i]`, and the only wire evaluations left are
the combined witness-column evaluations (`w_0(zeta)` from the public
input, `0` for the other columns).  This definition follows the words of
the spec and of claim C3, to be compared with the computation of the prover. -/
def perm_scalars_closed_form {F : Type} [Field F] (beta gamma alpha0 zkpZeta
    zeta : F) (shift : Fin 7 → F) (w0Zeta : F) : F :=
  -(beta * alpha0 * zkpZeta *
    ∏ i : Fin 6,
      (gamma + beta * (zeta * shift i.castSucc) + if i = 0 then w0Zeta else 0))

/-! ### The prover — `create_recursive_public_input_only` (lines 172-553) -/

/-- The variant of the kimchi `ProverError` raised by this prover:
`checked_sub` returning `None` during witness padding maps to
`ProverError::NoRoomForZkInWitness`. -/
inductive ProverError where
  | noRoomForZkInWitness
  deriving DecidableEq

/-- One ordering-relevant transcript event of the prover: an absorb into
or a squeeze out of the running Fq-sponge, the switch to the scalar
sponge (which absorbs the Fq-sponge digest), and the subsequent
Fr-sponge absorbs and squeezes. -/
inductive SpongeOp where
  | absorbVerifierIndexDigest
  | absorbRecursionChallengeComm
  | absorbPublicComm
  | absorbWitnessComm
  | squeezeBeta
  | squeezeGamma
  | absorbZComm
  | squeezeAlpha
  | absorbTComm
  | squeezeZeta
  | switchToScalarSponge
  | absorbPrevChallengeDigest
  | absorbFtEval1
  | absorbPublicEvalZeta
  | absorbPublicEvalZetaOmega
  | absorbRemainingEvals
  | squeezeV
  | squeezeU
  deriving DecidableEq

/-- The parts of the proof construction the claims are about: the
transcript event sequence, the padded witness the commitments are built
over, and the commitments themselves. -/
structure ProofModel (F : Type) where
  trace : List SpongeOp
  padded_witness : List F
  public_comm : PolyCommModel F
  w_comm : List (PolyCommModel F)
  z_comm : PolyCommModel F
  t_comm : PolyCommModel F
  t_blinders : List F

/-- The body of `create_recursive_public_input_only`, following the
source line by line.  `commitEvals` stands for
`srs.commit_evaluations_non_hiding(domain, _)`, the external commitment
service applied to the (padded) witness evaluations.  The function first
pads the witness (or fails, producing nothing), then builds each
commitment and records every sponge event in source order; all later
numeric work (evaluations, `ft`, opening) is modelled by the standalone
definitions above and draws no further transcript events before the
recorded Fr-sponge ones. -/
def create_recursive_public_input_only (F : Type) [Field F] (d1Size : ℕ)
    (witness : List F) (numPrevChallenges : ℕ)
    (commitEvals : List F → SymPoint F) : Except ProverError (ProofModel F) :=
  -- Pad the witness to the full domain size, or raise an error if the
  -- witness is too large (`d1_size.checked_sub(length_witness)`).
  if witness.length ≤ d1Size then
    let padded := witness ++ List.replicate (d1Size - witness.length) (0 : F)
    -- `fq_sponge.absorb_fq(&[verifier_index_digest])`
    let trace1 := [SpongeOp.absorbVerifierIndexDigest]
    -- one `absorb_commitment` per recursion challenge
    let trace2 := trace1 ++
      List.replicate numPrevChallenges SpongeOp.absorbRecursionChallengeComm
    -- commit to the padded witness evaluations, without hiding
    let unblindedWitnessComm := commitEvals padded
    -- `public_comm = unblinded_witness_comm.map(|x| srs.h + x.neg())`,
    -- absorbed immediately
    let public_comm : PolyCommModel F :=
      ⟨[(srsH F).add unblindedWitnessComm.neg]⟩
    let trace3 := trace2 ++ [SpongeOp.absorbPublicComm]
    -- witness commitments: column 0 blinded with factor 1, the other
    -- `COLUMNS - 1 = 14` columns are `f(x) = 0` with blinding factor 1
    let w_comm : List (PolyCommModel F) :=
      ⟨[unblindedWitnessComm.add (srsH F)]⟩ ::
        List.replicate 14 (⟨[srsH F]⟩ : PolyCommModel F)
    -- `w_comm.iter().for_each(|c| absorb_commitment(..))`
    let trace4 := trace3 ++ w_comm.map (fun _ => SpongeOp.absorbWitnessComm)
    -- `beta = fq_sponge.challenge(); gamma = fq_sponge.challenge()`
    let trace5 := trace4 ++ [SpongeOp.squeezeBeta, SpongeOp.squeezeGamma]
    -- `z_comm`: the constant polynomial `f(x) = 1` with no blinding
    let z_comm : PolyCommModel F := ⟨[srsG F 0]⟩
    let trace6 := trace5 ++ [SpongeOp.absorbZComm, SpongeOp.squeezeAlpha]
    -- `t_comm`: `f(x) = 0` with blinding factor 1, in 7 chunks
    let t_comm : PolyCommModel F := ⟨List.replicate 7 (srsH F)⟩
    let t_blinders : List F := List.replicate 7 (1 : F)
    let trace7 := trace6 ++ [SpongeOp.absorbTComm, SpongeOp.squeezeZeta]
    -- switch to the scalar sponge (absorbing the Fq-sponge digest), then
    -- the Fr-sponge absorbs and squeezes in source order (lines 425-454)
    let trace8 := trace7 ++
      [SpongeOp.switchToScalarSponge, SpongeOp.absorbPrevChallengeDigest,
        SpongeOp.absorbFtEval1, SpongeOp.absorbPublicEvalZeta,
        SpongeOp.absorbPublicEvalZetaOmega, SpongeOp.absorbRemainingEvals,
        SpongeOp.squeezeV, SpongeOp.squeezeU]
    Except.ok
      { trace := trace8
        padded_witness := padded
        public_comm := public_comm
        w_comm := w_comm
        z_comm := z_comm
        t_comm := t_comm
        t_blinders := t_blinders }
  else Except.error ProverError.noRoomForZkInWitness

/-- The absorb/squeeze order exactly as claim C1 states it: index digest,
recursion-challenge commitments, witness commitments, beta and gamma,
permutation commitment, alpha, quotient commitment, zeta (squeezed once
as the scalar challenge), switch to the scalar sponge, ft evaluation,
recursion-challenge digest, public-input evaluations, remaining
evaluations, v and u.  This definition follows the words of the claim,
for comparison with the trace of the source embedding. -/
def claimedAbsorbOrder (numPrevChallenges : ℕ) : List SpongeOp :=
  [SpongeOp.absorbVerifierIndexDigest] ++
    List.replicate numPrevChallenges SpongeOp.absorbRecursionChallengeComm ++
    List.replicate 15 SpongeOp.absorbWitnessComm ++
    [SpongeOp.squeezeBeta, SpongeOp.squeezeGamma, SpongeOp.absorbZComm,
      SpongeOp.squeezeAlpha, SpongeOp.absorbTComm, SpongeOp.squeezeZeta,
      SpongeOp.switchToScalarSponge, SpongeOp.absorbFtEval1,
      SpongeOp.absorbPrevChallengeDigest, SpongeOp.absorbPublicEvalZeta,
      SpongeOp.absorbPublicEvalZetaOmega, SpongeOp.absorbRemainingEvals,
      SpongeOp.squeezeV, SpongeOp.squeezeU]

/-- The absorb/squeeze order the source actually follows: as the claim,
except that the blinded commitment to the negated public polynomial is
absorbed between the recursion-challenge commitments and the witness
commitments, and the recursion-challenge digest is absorbed before the
ft evaluation. -/
def actualAbsorbOrder (numPrevChallenges : ℕ) : List SpongeOp :=
  [SpongeOp.absorbVerifierIndexDigest] ++
    List.replicate numPrevChallenges SpongeOp.absorbRecursionChallengeComm ++
    [SpongeOp.absorbPublicComm] ++
    List.replicate 15 SpongeOp.absorbWitnessComm ++
    [SpongeOp.squeezeBeta, SpongeOp.squeezeGamma, SpongeOp.absorbZComm,
      SpongeOp.squeezeAlpha, SpongeOp.absorbTComm, SpongeOp.squeezeZeta,
      SpongeOp.switchToScalarSponge, SpongeOp.absorbPrevChallengeDigest,
      SpongeOp.absorbFtEval1, SpongeOp.absorbPublicEvalZeta,
      SpongeOp.absorbPublicEvalZetaOmega, SpongeOp.absorbRemainingEvals,
      SpongeOp.squeezeV, SpongeOp.squeezeU]

/-- The transcript event sequence of a proof-construction result:
`some` of the trace on success, `none` on error. -/
def proofTrace {F : Type} (r : Except ProverError (ProofModel F)) :
    Option (List SpongeOp) :=
  match r with
  | .ok pf => some pf.trace
  | .error _ => none

/-- The permutation-accumulator commitment of a proof-construction
result: `some` of `z_comm` on success, `none` on error. -/
def proofZComm {F : Type} (r : Except ProverError (ProofModel F)) :
    Option (PolyCommModel F) :=
  match r with
  | .ok pf => some pf.z_comm
  | .error _ => none

/-- Where the randomness for the opening proof comes from. -/
inductive RngSource where
  | ambientOsRng
  | callerParameter
  deriving DecidableEq

/-- The randomness source `create_recursive_public_input_only` hands to
`srs.open` (lines 528-539): `let rng = &mut rand::rngs::OsRng;`, the
ambient operating-system entropy source, created inside the function
body (the accompanying comment reads `TODO: rng should be passed as
arg`). -/
def opening_proof_rng_source : RngSource := RngSource.ambientOsRng

/-! ### Helper lemmas -/

/-- Any two dummy-sponge states are equal: the struct has no fields. -/
theorem DummySpongeState.eq_of (s t : DummySpongeState) : s = t := by
  cases s; cases t; rfl

/-- A singleton chunk list evaluates to its only chunk. -/
theorem evalChunks_singleton {F : Type} [Field F] (c pt : F) :
    evalChunks [c] pt = c := by
  simp [evalChunks]

/-- The SRS point `g 0` is the unblinded commitment to the constant
polynomial 1. -/
theorem srsG_zero_eq_commit (F : Type) [Field F] :
    srsG F 0 = commitSym [1] 0 := by
  ext j
  · rcases j with _ | j <;> simp [srsG, commitSym]
  · simp [srsG, commitSym]

/-- The SRS point `h` is the commitment to the zero polynomial with
blinding factor 1. -/
theorem srsH_eq_commit (F : Type) [Field F] :
    srsH F = commitSym [] 1 := by
  ext j
  · simp [srsH, commitSym]
  · simp [srsH, commitSym]

/-- `g 1` scaled by `c` is the unblinded commitment to `f(x) = c * x`. -/
theorem smul_srsG_one_eq_commit (F : Type) [Field F] (c : F) :
    SymPoint.smul c (srsG F 1) = commitSym [0, c] 0 := by
  ext j
  · rcases j with _ | _ | j <;> simp [SymPoint.smul, srsG, commitSym]
  · simp [SymPoint.smul, srsG, commitSym]

/-- Casting a list of naturals below the modulus into `ZMod p` preserves
occurrence counts of any value below the modulus. -/
theorem count_map_natCast {p : ℕ} [NeZero p] (l : List ℕ) (v : ℕ)
    (hv : v < p) (hl : ∀ i ∈ l, i < p) :
    (l.map (Nat.cast : ℕ → ZMod p)).count (Nat.cast v) = l.count v := by
  induction l with
  | nil => simp
  | cons x xs ih =>
    have hx : x < p := hl x (by simp)
    have hxs : ∀ i ∈ xs, i < p := fun i hi => hl i (by simp [hi])
    have hiff : ((Nat.cast v : ZMod p) = Nat.cast x) ↔ v = x := by
      constructor
      · intro hcast
        have hval := congrArg ZMod.val hcast
        rwa [ZMod.val_natCast_of_lt hv, ZMod.val_natCast_of_lt hx] at hval
      · intro hvx; rw [hvx]
    have hiff2 : ((Nat.cast x : ZMod p) = Nat.cast v) ↔ x = v :=
      ⟨fun hc => (hiff.1 hc.symm).symm, fun hc => by rw [hc]⟩
    simp only [List.map_cons, List.count_cons, ih hxs, beq_iff_eq]
    by_cases hvx : x = v
    · rw [if_pos (hiff2.2 hvx), if_pos hvx]
    · rw [if_neg (fun hc => hvx (hiff2.1 hc)), if_neg hvx]

/-! ### Claims -/

/-- C8: the claim says every proving call takes the opening-proof
randomness as an explicit caller-supplied parameter and never draws from
implicit global entropy.  The source of
`create_recursive_public_input_only` instead instantiates
`rand::rngs::OsRng` — ambient operating-system entropy — inside the
function body (its own comment records the intent: `TODO: rng should be
passed as arg`), so the opening proof is not a deterministic function of
witness and caller-supplied seed.  This theorem evaluates the embedded
randomness source of the code. -/
theorem claim8_rng_source_is_ambient :
    opening_proof_rng_source = RngSource.ambientOsRng ∧
      opening_proof_rng_source ≠ RngSource.callerParameter := by
  exact ⟨rfl, by decide⟩

/-- C9: the dummy sponges are deterministic no-ops: after any sequence of
absorb calls with any arguments, every challenge / digest of
`DummyFqSponge` and `DummyFrSponge` returns the constant 1, and two runs
with different absorbed inputs end in identical states, hence identical
challenges. -/
theorem claim9_dummy_sponges_constant (G Fq Fp : Type) [One Fq] [One Fp]
    (calls calls2 : List (DummyFqAbsorbCall G Fq Fp))
    (frCalls frCalls2 : List (DummyFrAbsorbCall Fp)) :
    DummySpongeState.challenge Fp (DummySpongeState.new.runFq calls) = 1 ∧
    DummySpongeState.challenge_fq Fq (DummySpongeState.new.runFq calls) = 1 ∧
    DummySpongeState.digest Fp (DummySpongeState.new.runFq calls) = 1 ∧
    DummySpongeState.digest_fq Fq (DummySpongeState.new.runFq calls) = 1 ∧
    DummySpongeState.challengeFr Fp (DummySpongeState.new.runFr frCalls) = ⟨1⟩ ∧
    DummySpongeState.digest Fp (DummySpongeState.new.runFr frCalls) = 1 ∧
    DummySpongeState.new.runFq calls = DummySpongeState.new.runFq calls2 ∧
    DummySpongeState.new.runFr frCalls = DummySpongeState.new.runFr frCalls2 := by
  refine ⟨rfl, rfl, rfl, rfl, rfl, rfl, ?_, ?_⟩ <;>
    exact DummySpongeState.eq_of _ _

/-- C10: `from_u32` inverts `to_u32`; `to_u32` maps the four table
variants injectively onto `{1, 2, 3, 4}`; `from_u32` panics (modelled as
`none`) on every value outside that set; and `is_fixed` is true on every
variant. -/
theorem claim10_lookup_table_id :
    (∀ t : LookupTable, LookupTable.from_u32 t.to_u32 = some t) ∧
    Function.Injective LookupTable.to_u32 ∧
    (∀ t : LookupTable, t.to_u32 ∈ ({1, 2, 3, 4} : Finset ℕ)) ∧
    (∀ v : ℕ, v ∉ ({1, 2, 3, 4} : Finset ℕ) → LookupTable.from_u32 v = none) ∧
    (∀ t : LookupTable, t.is_fixed = true) := by
  refine ⟨?_, ?_, ?_, ?_, ?_⟩
  · intro t; cases t <;> rfl
  · intro a b h
    cases a <;> cases b <;> simp_all [LookupTable.to_u32]
  · intro t; cases t <;> decide
  · intro v hv
    simp only [Finset.mem_insert, Finset.mem_singleton, not_or] at hv
    obtain ⟨h1, h2, h3, h4⟩ := hv
    simp [LookupTable.from_u32, h1, h2, h3, h4]
  · intro t; rfl

/-- Witness for C10: at the concrete out-of-range id 7, the hypothesis
holds and `from_u32` returns no table. -/
theorem claim10_witness :
    (7 : ℕ) ∉ ({1, 2, 3, 4} : Finset ℕ) ∧ LookupTable.from_u32 7 = none :=
  ⟨by decide, claim10_lookup_table_id.2.2.2.1 7 (by decide)⟩

/-- C4: every fixed commitment of `verifier_index` is built from circuit
shape alone: `sigma_comm[i]` is the unblinded commitment to
`f(x) = shift[i] * x`; the generic-gate selector and coefficient column 0
are unblinded commitments to the constant 1; every disabled selector and
the remaining coefficient columns are commitments to the constant 0 with
blinding factor 1 — which is a different curve point from an unblinded
zero commitment. -/
theorem claim4_verifier_index_commitments (F : Type) [Field F]
    (domainSize maxPolySize nPub nPrev : ℕ) (shifts : Fin 7 → F) (endoQ : F) :
    (∀ i, (verifier_index F domainSize maxPolySize nPub nPrev shifts endoQ).sigma_comm i =
      ⟨[commitSym [0, shifts i] 0]⟩) ∧
    (verifier_index F domainSize maxPolySize nPub nPrev shifts endoQ).generic_comm =
      ⟨[commitSym [1] 0]⟩ ∧
    (verifier_index F domainSize maxPolySize nPub nPrev shifts endoQ).coefficients_comm 0 =
      ⟨[commitSym [1] 0]⟩ ∧
    (∀ i : Fin 15, i ≠ 0 →
      (verifier_index F domainSize maxPolySize nPub nPrev shifts endoQ).coefficients_comm i =
        ⟨[commitSym [] 1]⟩) ∧
    (verifier_index F domainSize maxPolySize nPub nPrev shifts endoQ).psm_comm =
      ⟨[commitSym [] 1]⟩ ∧
    (verifier_index F domainSize maxPolySize nPub nPrev shifts endoQ).complete_add_comm =
      ⟨[commitSym [] 1]⟩ ∧
    (verifier_index F domainSize maxPolySize nPub nPrev shifts endoQ).mul_comm =
      ⟨[commitSym [] 1]⟩ ∧
    (verifier_index F domainSize maxPolySize nPub nPrev shifts endoQ).emul_comm =
      ⟨[commitSym [] 1]⟩ ∧
    (verifier_index F domainSize maxPolySize nPub nPrev shifts endoQ).endomul_scalar_comm =
      ⟨[commitSym [] 1]⟩ ∧
    commitSym ([] : List F) 1 ≠ commitSym ([] : List F) 0 := by
  refine ⟨?_, ?_, ?_, ?_, ?_, ?_, ?_, ?_, ?_, ?_⟩
  · intro i
    simp only [verifier_index]
    rw [smul_srsG_one_eq_commit]
  · simp only [verifier_index]
    rw [srsG_zero_eq_commit]
  · simp only [verifier_index, Fin.val_zero, if_true]
    rw [srsG_zero_eq_commit]
  · intro i hi
    have : i.val ≠ 0 := fun h => hi (Fin.ext h)
    simp only [verifier_index]
    rw [if_neg this, srsH_eq_commit]
  · simp only [verifier_index]; rw [srsH_eq_commit]
  · simp only [verifier_index]; rw [srsH_eq_commit]
  · simp only [verifier_index]; rw [srsH_eq_commit]
  · simp only [verifier_index]; rw [srsH_eq_commit]
  · simp only [verifier_index]; rw [srsH_eq_commit]
  · intro h
    have := congrArg SymPoint.hc h
    simp [commitSym] at this

/-- Witness for C4: the hypothesis-bearing conjunct applied at the
concrete coefficient column 1 over the field with 65537 elements. -/
theorem claim4_witness :
    (1 : Fin 15) ≠ 0 ∧
    (verifier_index (ZMod 65537) 32768 32768 4 0 (fun _ => 2) 3).coefficients_comm 1 =
      ⟨[commitSym [] 1]⟩ :=
  ⟨by decide,
    (claim4_verifier_index_commitments (ZMod 65537) 32768 32768 4 0
      (fun _ => 2) 3).2.2.2.1 1 (by decide)⟩

/-- C5: every optional feature is disabled in the public-input-only
verifier index, and correspondingly every optional commitment field of
the index and every optional evaluation field of the proof is `None`. -/
theorem claim5_optional_features_none (F : Type) [Field F]
    (domainSize maxPolySize nPub nPrev : ℕ) (shifts : Fin 7 → F) (endoQ : F)
    (zeta zetaOmega : F) (w0 : PointEvals (List F)) :
    publicInputOnlyFeatureFlags =
      { range_check0 := false
        range_check1 := false
        lookup_features :=
          { patterns :=
              { xor := false, lookup := false, range_check := false
                foreign_field_mul := false }
            joint_lookup_used := false
            uses_runtime_tables := false }
        foreign_field_add := false
        foreign_field_mul := false
        xor := false
        rot := false } ∧
    (verifier_index F domainSize maxPolySize nPub nPrev shifts endoQ).range_check0_comm = none ∧
    (verifier_index F domainSize maxPolySize nPub nPrev shifts endoQ).range_check1_comm = none ∧
    (verifier_index F domainSize maxPolySize nPub nPrev shifts endoQ).foreign_field_add_comm = none ∧
    (verifier_index F domainSize maxPolySize nPub nPrev shifts endoQ).foreign_field_mul_comm = none ∧
    (verifier_index F domainSize maxPolySize nPub nPrev shifts endoQ).xor_comm = none ∧
    (verifier_index F domainSize maxPolySize nPub nPrev shifts endoQ).rot_comm = none ∧
    (verifier_index F domainSize maxPolySize nPub nPrev shifts endoQ).lookup_index = none ∧
    (chunked_evals zeta zetaOmega shifts w0).range_check0_selector = none ∧
    (chunked_evals zeta zetaOmega shifts w0).range_check1_selector = none ∧
    (chunked_evals zeta zetaOmega shifts w0).foreign_field_add_selector = none ∧
    (chunked_evals zeta zetaOmega shifts w0).foreign_field_mul_selector = none ∧
    (chunked_evals zeta zetaOmega shifts w0).xor_selector = none ∧
    (chunked_evals zeta zetaOmega shifts w0).rot_selector = none ∧
    (chunked_evals zeta zetaOmega shifts w0).runtime_lookup_table_selector = none ∧
    (chunked_evals zeta zetaOmega shifts w0).xor_lookup_selector = none ∧
    (chunked_evals zeta zetaOmega shifts w0).lookup_gate_lookup_selector = none ∧
    (chunked_evals zeta zetaOmega shifts w0).range_check_lookup_selector = none ∧
    (chunked_evals zeta zetaOmega shifts w0).foreign_field_mul_lookup_selector = none ∧
    (chunked_evals zeta zetaOmega shifts w0).lookup_aggregation = none ∧
    (chunked_evals zeta zetaOmega shifts w0).lookup_table = none ∧
    (∀ i, (chunked_evals zeta zetaOmega shifts w0).lookup_sorted i = none) ∧
    (chunked_evals zeta zetaOmega shifts w0).runtime_lookup_table = none := by
  refine ⟨rfl, rfl, rfl, rfl, rfl, rfl, rfl, rfl, rfl, rfl, rfl, rfl, rfl, rfl,
    rfl, rfl, rfl, rfl, rfl, rfl, rfl, fun i => rfl, rfl⟩

/-- Counterexample to C1 as stated: at a concrete input (domain size 4,
witness of length 2, no recursion challenges) the transcript event
sequence of `create_recursive_public_input_only` is not the sequence the
claim lists — the code also absorbs the blinded commitment to the
negated public polynomial right after the recursion-challenge
commitments, and it absorbs the recursion-challenge digest before the ft
evaluation, not after. -/
theorem claim1_counterexample :
    proofTrace (create_recursive_public_input_only (ZMod 65537) 4 [1, 2] 0
        (fun _ => srsG (ZMod 65537) 0)) ≠ some (claimedAbsorbOrder 0) := by
  decide

/-- C1 (amended): the absorb/squeeze sequence of
`create_recursive_public_input_only` is, in order: verifier-index
digest, recursion-challenge commitments, the blinded commitment to the
negated public polynomial, the witness commitments, beta and gamma, the
permutation commitment, alpha, the quotient commitment, the zeta
challenge, the switch to the scalar sponge, the recursion-challenge
digest, the ft evaluation, the public-input evaluations at zeta and
zeta * omega, all remaining evaluations, and finally v and u. -/
theorem claim1_transcript_order (F : Type) [Field F] (d1Size : ℕ)
    (witness : List F) (numPrevChallenges : ℕ)
    (commitEvals : List F → SymPoint F)
    (h : witness.length ≤ d1Size) :
    proofTrace (create_recursive_public_input_only F d1Size witness
        numPrevChallenges commitEvals) =
      some (actualAbsorbOrder numPrevChallenges) := by
  simp only [create_recursive_public_input_only, if_pos h, proofTrace,
    actualAbsorbOrder, List.map_cons, List.map_replicate]
  simp [List.replicate_succ]

/-- Witness for C1: the amended order at a concrete input with one
recursion challenge. -/
theorem claim1_witness :
    ([1, 2, 3] : List (ZMod 65537)).length ≤ 4 ∧
    proofTrace (create_recursive_public_input_only (ZMod 65537) 4 [1, 2, 3] 1
        (fun _ => srsH (ZMod 65537))) = some (actualAbsorbOrder 1) :=
  ⟨by decide,
    claim1_transcript_order (ZMod 65537) 4 [1, 2, 3] 1
      (fun _ => srsH (ZMod 65537)) (by decide)⟩

/-- C2: if the witness is longer than the domain,
`create_recursive_public_input_only` fails with
`ProverError::NoRoomForZkInWitness` and produces nothing (the `Except`
error carries no proof fragment); otherwise the witness is zero-padded to
exactly the domain size, and the (unique, first) witness commitment is
the commitment over that padded witness. -/
theorem claim2_witness_padding (F : Type) [Field F] (d1Size : ℕ)
    (w : List F) (numPrevChallenges : ℕ) (commitEvals : List F → SymPoint F) :
    (d1Size < w.length →
      create_recursive_public_input_only F d1Size w numPrevChallenges commitEvals =
        Except.error ProverError.noRoomForZkInWitness) ∧
    (w.length ≤ d1Size →
      ∃ pf, create_recursive_public_input_only F d1Size w numPrevChallenges commitEvals =
          Except.ok pf ∧
        pf.padded_witness = w ++ List.replicate (d1Size - w.length) 0 ∧
        pf.padded_witness.length = d1Size ∧
        pf.w_comm.head? =
          some ⟨[(commitEvals pf.padded_witness).add (srsH F)]⟩) := by
  constructor
  · intro hlt
    rw [create_recursive_public_input_only, if_neg (by omega)]
  · intro hle
    rw [create_recursive_public_input_only, if_pos hle]
    refine ⟨_, rfl, rfl, ?_, rfl⟩
    simp only [List.length_append, List.length_replicate]
    omega

/-- Witness for C2, success side: a length-3 witness in a domain of size
8 is padded with five zeros. -/
theorem claim2_witness :
    ([3, 1, 4] : List (ZMod 65537)).length ≤ 8 ∧
    ∃ pf, create_recursive_public_input_only (ZMod 65537) 8 [3, 1, 4] 0
        (fun _ => srsG (ZMod 65537) 0) = Except.ok pf ∧
      pf.padded_witness = [3, 1, 4] ++ List.replicate 5 0 ∧
      pf.padded_witness.length = 8 ∧
      pf.w_comm.head? =
        some ⟨[((fun _ => srsG (ZMod 65537) 0) pf.padded_witness).add
          (srsH (ZMod 65537))]⟩ :=
  ⟨by decide,
    (claim2_witness_padding (ZMod 65537) 8 [3, 1, 4] 0
      (fun _ => srsG (ZMod 65537) 0)).2 (by decide)⟩

/-- C3: in the identity-permutation degenerate case the permutation
accumulator is the constant polynomial 1 — committed without blinding
(`z_comm` is the unblinded commitment to the constant 1) and evaluated
to 1 at both zeta and zeta * omega — and the linearized
permutation scalar equals, for all beta, gamma, alpha and zeta, the
closed form computed only from beta, gamma, alpha (its first permutation
power), zeta (also through the public zk-polynomial evaluation), the
witness-column evaluations and the public shift constants; the `ft`
polynomial is `x` times that scalar times the last shift constant.
Reason `perm_scalars` itself is spec-modelled: its body lives in a
kimchi module outside `src/`. -/
theorem claim3_identity_permutation_scalar (F : Type) [Field F]
    (beta gamma alpha0 zkpZeta zeta zetaOmega : F) (shift : Fin 7 → F)
    (a b : F) (pows : PointEvals F) (d1Size : ℕ) (w : List F)
    (numPrevChallenges : ℕ) (commitEvals : List F → SymPoint F)
    (h : w.length ≤ d1Size) :
    proofZComm (create_recursive_public_input_only F d1Size w
        numPrevChallenges commitEvals) = some ⟨[commitSym [1] 0]⟩ ∧
    (chunked_evals zeta zetaOmega shift ⟨[a], [b]⟩).z = constantEvals 1 ∧
    combinePoint pows (chunked_evals zeta zetaOmega shift ⟨[a], [b]⟩).z =
      ⟨1, 1⟩ ∧
    prover_ft_scalar beta gamma alpha0 zkpZeta zeta zetaOmega shift
        ⟨[a], [b]⟩ pows =
      perm_scalars_closed_form beta gamma alpha0 zkpZeta zeta shift a ∧
    prover_ft_coeffs beta gamma alpha0 zkpZeta zeta zetaOmega shift
        ⟨[a], [b]⟩ pows =
      [0, perm_scalars_closed_form beta gamma alpha0 zkpZeta zeta shift a *
        shift 6] := by
  have hscalar :
      prover_ft_scalar beta gamma alpha0 zkpZeta zeta zetaOmega shift
          ⟨[a], [b]⟩ pows =
        perm_scalars_closed_form beta gamma alpha0 zkpZeta zeta shift a := by
    simp only [prover_ft_scalar, perm_scalars, perm_scalars_closed_form,
      chunked_evals, combinePoint, constantEvals, evalChunks_singleton, one_mul]
    congr 1
    congr 1
    apply Finset.prod_congr rfl
    intro i _
    congr 1
    by_cases hi : i = 0
    · subst hi
      simp [evalChunks_singleton]
    · have hv : i.val ≠ 0 := fun hv => hi (Fin.ext hv)
      simp [hv, hi, evalChunks_singleton]
  refine ⟨?_, rfl, ?_, hscalar, ?_⟩
  · rw [create_recursive_public_input_only, if_pos h]
    simp only [proofZComm]
    rw [srsG_zero_eq_commit]
  · simp [chunked_evals, combinePoint, constantEvals, evalChunks_singleton]
  · simp only [prover_ft_coeffs, hscalar]

/-- Witness for C3 at concrete values over the field with 65537
elements. -/
theorem claim3_witness :
    ([2, 3] : List (ZMod 65537)).length ≤ 4 ∧
    prover_ft_scalar (F := ZMod 65537) 5 7 11 13 17 19 (fun i => (i : ZMod 65537) + 2)
        ⟨[23], [29]⟩ ⟨31, 37⟩ =
      perm_scalars_closed_form 5 7 11 13 17 (fun i => (i : ZMod 65537) + 2) 23 :=
  ⟨by decide,
    (claim3_identity_permutation_scalar (ZMod 65537) 5 7 11 13 17 19
      (fun i => (i : ZMod 65537) + 2) 23 29 ⟨31, 37⟩ 4 [2, 3] 0
      (fun _ => srsG (ZMod 65537) 0) (by decide)).2.2.2.1⟩

/-- C6: the 15-bit range table has length `2^15` and its entries contain
each integer in `[0, 2^15)` exactly once; the 4-bit range table has
length `2^4` and its entries cover `[0, 16)`; the foreign-field
highest-limb table has length equal to the top-limb modulus and its
entries cover `[0, topLimb)`.  The hypotheses record the `assert!` in
`entries` (`2^15 ≤ size`) and that the scalar field is large enough for
the canonical-representative comparisons the source performs
(`size ≤ p`, `topLimb < p`); the top-limb modulus fits in the domain
(`topLimb ≤ size`). -/
theorem claim6_fixed_tables (p size topLimb : ℕ) [NeZero p]
    (h15 : 2 ^ 15 ≤ size) (hsp : size ≤ p) (htop : topLimb ≤ size)
    (htp : topLimb < p) :
    (LookupTable.length topLimb LookupTable.rangeCheck15 = 2 ^ 15 ∧
      ∃ l, LookupTable.entries p size topLimb LookupTable.rangeCheck15 = some l ∧
        ∀ v : ℕ, v < 2 ^ 15 → l.count (Nat.cast v : ZMod p) = 1) ∧
    (LookupTable.length topLimb LookupTable.rangeCheck4 = 2 ^ 4 ∧
      ∃ l, LookupTable.entries p size topLimb LookupTable.rangeCheck4 = some l ∧
        ∀ v : ℕ, v < 2 ^ 4 → (Nat.cast v : ZMod p) ∈ l) ∧
    (LookupTable.length topLimb LookupTable.rangeCheckFfHighest = topLimb ∧
      ∃ l, LookupTable.entries p size topLimb LookupTable.rangeCheckFfHighest = some l ∧
        ∀ v : ℕ, v < topLimb → (Nat.cast v : ZMod p) ∈ l) := by
  refine ⟨⟨rfl, ?_⟩, ⟨rfl, ?_⟩, ⟨rfl, ?_⟩⟩
  · refine ⟨(List.range size).map (Nat.cast : ℕ → ZMod p), ?_, ?_⟩
    · simp only [LookupTable.entries]
      rw [if_pos h15]
    · intro v hv
      have hvs : v < size := lt_of_lt_of_le hv h15
      rw [count_map_natCast _ _ (lt_of_lt_of_le hvs hsp)
        (fun i hi => lt_of_lt_of_le (List.mem_range.1 hi) hsp)]
      exact List.count_eq_one_of_mem (List.nodup_range size) (List.mem_range.2 hvs)
  · refine ⟨(List.range size).map (fun (i : ℕ) =>
      if i < 2 ^ 4 then (Nat.cast i : ZMod p) else 0), ?_, ?_⟩
    · simp only [LookupTable.entries]
      rw [if_pos h15]
    · intro v hv
      refine List.mem_map.2 ⟨v, List.mem_range.2 ?_, ?_⟩
      · calc v < 2 ^ 4 := hv
          _ ≤ 2 ^ 15 := by norm_num
          _ ≤ size := h15
      · rw [if_pos hv]
  · refine ⟨(List.range size).map (fun (i : ℕ) =>
      if (Nat.cast i : ZMod p).val < (Nat.cast topLimb : ZMod p).val then
        (Nat.cast i : ZMod p) else 0), ?_, ?_⟩
    · simp only [LookupTable.entries]
      rw [if_pos h15]
    · intro v hv
      refine List.mem_map.2 ⟨v, List.mem_range.2 (lt_of_lt_of_le hv htop), ?_⟩
      have hvp : v < p := lt_trans hv htp
      have hc : (Nat.cast v : ZMod p).val < (Nat.cast topLimb : ZMod p).val := by
        rw [ZMod.val_natCast_of_lt hvp, ZMod.val_natCast_of_lt htp]
        exact hv
      rw [if_pos hc]

/-- Witness for C6: concrete table parameters `p = 65537`,
`size = 2^15`, `topLimb = 100`; the 15-bit table counts are extracted
from the theorem. -/
theorem claim6_witness :
    (2 ^ 15 ≤ 2 ^ 15 ∧ 2 ^ 15 ≤ 65537 ∧ 100 ≤ 2 ^ 15 ∧ 100 < 65537) ∧
    (∃ l, LookupTable.entries 65537 (2 ^ 15) 100 LookupTable.rangeCheck15 = some l ∧
      ∀ v : ℕ, v < 2 ^ 15 → l.count (Nat.cast v : ZMod 65537) = 1) := by
  refine ⟨by norm_num, ?_⟩
  exact (claim6_fixed_tables 65537 (2 ^ 15) 100 (by norm_num) (by norm_num)
    (by norm_num) (by norm_num)).1.2

/-- Counterexample to C7 as stated: the claim asserts the boundary test
`i < 2 * (i << 4)` is true for every integer `i > 0` and the final zero
branch is reached only at `i = 0`.  At the u64 value `i = 2^59` the
shifted product `2 * (i << 4)` wraps to 0 modulo `2^64`, the test is
false, and the `RangeCheck4Abs` entry computation falls through to the
final zero branch although `i ≠ 0`. -/
theorem claim7_counterexample :
    (0 : ℕ) < 2 ^ 59 ∧ ¬ ((2 ^ 59 : ℕ) < 2 ^ 4) ∧
      rc4absTest (2 ^ 59) = false ∧ rc4absEntryNat (2 ^ 59) = 0 := by
  decide

/-- C7 (amended): the boundary test `i < 2 * (i << 4)` is true for every
integer `i` with `0 < i < 2^59` (beyond which the u64 product wraps), so
for every such index with `2^4 ≤ i` the entry produced is
`F::from(i - 2 * (1 << 4))` computed with wrapping u64 subtraction, and
below `2^59` the final zero branch is unreachable: index 0 — the only
remaining candidate — is handled by the first branch. -/
theorem claim7_rc4abs_boundary (i : ℕ) (h0 : 0 < i) (h59 : i < 2 ^ 59) :
    rc4absTest i = true ∧
    (2 ^ 4 ≤ i → rc4absEntryNat i = (i + (u64Size - 2 ^ 5)) % u64Size) ∧
    rc4absEntryNat 0 = 0 ∧ (0 : ℕ) < 2 ^ 4 := by
  have hp4 : (2 : ℕ) ^ 4 = 16 := rfl
  have h59l : i < 576460752303423488 := by
    have hpow : (2 : ℕ) ^ 59 = 576460752303423488 := by norm_num
    omega
  have h64 : u64Size = 18446744073709551616 := by norm_num [u64Size]
  have m1 : i * 2 ^ 4 % u64Size = i * 2 ^ 4 := by
    apply Nat.mod_eq_of_lt
    rw [h64, hp4]
    omega
  have htest : rc4absTest i = true := by
    simp only [rc4absTest, decide_eq_true_eq, m1]
    have m2 : 2 * (i * 2 ^ 4) % u64Size = 2 * (i * 2 ^ 4) := by
      apply Nat.mod_eq_of_lt
      rw [h64, hp4]
      omega
    rw [m2, hp4]
    omega
  refine ⟨htest, ?_, rfl, by decide⟩
  intro h16
  have hnot : ¬ i < 2 ^ 4 := by omega
  simp only [rc4absEntryNat, if_neg hnot, htest, if_true]

/-- Witness for C7 at the concrete in-range index 100. -/
theorem claim7_witness :
    ((0 : ℕ) < 100 ∧ (100 : ℕ) < 2 ^ 59 ∧ (2 : ℕ) ^ 4 ≤ 100) ∧
      rc4absTest 100 = true ∧
      rc4absEntryNat 100 = (100 + (u64Size - 2 ^ 5)) % u64Size :=
  ⟨⟨by decide, by decide, by decide⟩,
    (claim7_rc4abs_boundary 100 (by decide) (by decide)).1,
    (claim7_rc4abs_boundary 100 (by decide) (by decide)).2.1 (by decide)⟩

end ProofSystems
